import Mathlib

/-!
Shallow embedding of the Opus JNI bridge (`app/src/main/cpp/opus_jni.cpp`,
working variant) and of the interface-shape stub
(`app/src/main/cpp/opus_jni_stub.cpp`).

Modelling conventions:
- JNI array references are `Option (List Int)`; `none` is a null reference.
- Native pointers (`OpusEncoder*`, `OpusDecoder*` cast to `jlong`) are `Nat`,
  with `0` standing for the null pointer / sentinel handle.
- The external Opus library is an abstract structure `OpusLib` of oracles:
  the bridge never reimplements compression, so theorems quantify over it.
- `GetShortArrayElements` / `GetByteArrayElements` and the matching
  `Release*ArrayElements` calls are recorded as `LeaseEvent`s in the order
  the C code performs them; acquiring a lease is the bridge's native-memory
  access (JNI pins or copies the managed array into native memory).
- Android logging (`__android_log_print`) is best-effort diagnostics that the
  spec excludes from observable state; it is not modelled.
- All functions are total Lean definitions, so "does not crash" and
  "always succeeds" hold by construction wherever the embedding applies.
-/

namespace OpusJNI

/-- The `opus_encoder_ctl` request selectors used by `createEncoder`
(`OPUS_SET_VBR`, `OPUS_SET_VBR_CONSTRAINT`, ...), named symbolically. -/
inductive CtlReq
  | setVBR
  | setVBRConstraint
  | setBitrate
  | setComplexity
  | setSignal
  | setLSBDepth
  | setDTX
  | setInbandFEC
  | setPacketLossPerc
  deriving DecidableEq, Repr

/-- `OPUS_OK` from the Opus headers. -/
def OPUS_OK : Int := 0

/-- `OPUS_APPLICATION_VOIP` from the Opus headers. -/
def OPUS_APPLICATION_VOIP : Int := 2048

/-- `OPUS_SIGNAL_VOICE` from the Opus headers. -/
def OPUS_SIGNAL_VOICE : Int := 3001

/-- Abstract model of the external Opus codec library. The bridge consumes it
only through these primitives; every theorem about the bridge quantifies over
an arbitrary `OpusLib`. Create calls return a pointer (`0` = NULL) together
with the `error` out-parameter. `opusEncode ptr samples frameSize bytes max`
returns the codec return value and the output byte buffer contents;
`opusDecode ptr bytes bytesLength samples frameSize fec` returns the codec
return value and the output sample buffer contents. -/
structure OpusLib where
  encoderCreate : Int → Int → Int → Nat × Int
  encoderCtl : CtlReq → Int → Int
  decoderCreate : Int → Int → Nat × Int
  opusEncode : Nat → List Int → Int → List Int → Int → Int × List Int
  opusDecode : Nat → List Int → Int → List Int → Int → Int → Int × List Int
  versionString : String
  encoderGetSize : Int → Int
  decoderGetSize : Int → Int

/-- One JNI buffer-lease event: `Get<T>ArrayElements` acquires direct native
access to a managed array, `Release<T>ArrayElements` relinquishes it. -/
inductive LeaseEvent
  | acquireShort
  | acquireByte
  | releaseShort
  | releaseByte
  deriving DecidableEq, Repr

/-- Result of `Java_..._createEncoder`: the returned `jlong` handle and the
list of `opus_encoder_ctl` calls performed (request, value), in source order.
The C code discards every ctl return value. -/
structure CreateResult where
  handle : Int
  ctls : List (CtlReq × Int)
  deriving DecidableEq, Repr

/-- Embedding of `Java_org_stypox_dicio_io_audio_OpusNative_createEncoder`:
calls `opus_encoder_create(sampleRateInHz, channelConfig,
OPUS_APPLICATION_VOIP, &error)`; if the pointer is non-null and
`error == OPUS_OK`, performs the nine fixed `opus_encoder_ctl`
configuration calls (return values ignored); in all cases returns
`(jlong) pOpusEnc`. -/
def createEncoder (lib : OpusLib) (sampleRateInHz channelConfig complexity bitrate : Int) :
    CreateResult :=
  let r := lib.encoderCreate sampleRateInHz channelConfig OPUS_APPLICATION_VOIP
  let pOpusEnc := r.1
  let error := r.2
  if pOpusEnc ≠ 0 ∧ error = OPUS_OK then
    ⟨(pOpusEnc : Int),
      [(.setVBR, 0), (.setVBRConstraint, 1), (.setBitrate, bitrate),
       (.setComplexity, complexity), (.setSignal, OPUS_SIGNAL_VOICE),
       (.setLSBDepth, 16), (.setDTX, 0), (.setInbandFEC, 0),
       (.setPacketLossPerc, 0)]⟩
  else
    ⟨(pOpusEnc : Int), []⟩

/-- Embedding of `Java_org_stypox_dicio_io_audio_OpusNative_createDecoder`:
calls `opus_decoder_create(sampleRateInHz, channelConfig, &error)` and returns
`(jlong) pOpusDec` unconditionally (the success test only selects the log
message). -/
def createDecoder (lib : OpusLib) (sampleRateInHz channelConfig : Int) : Int :=
  ((lib.decoderCreate sampleRateInHz channelConfig).1 : Int)

/-- Observable outcome of one `encode` call: the `jint` return value, the
buffer-lease trace, the final contents of the two managed arrays after any
JNI copy-back, and the arguments passed to `opus_encode` when it was invoked
(`none` = codec never called). -/
structure EncodeResult where
  ret : Int
  events : List LeaseEvent
  samplesFinal : Option (List Int)
  bytesFinal : Option (List Int)
  codecCall : Option (Nat × List Int × Int × List Int × Int)
  deriving DecidableEq, Repr

/-- Embedding of `Java_org_stypox_dicio_io_audio_OpusNative_encode`. Source
order: null test on handle and both array references (return -1, nothing
acquired); `GetShortArrayElements` then `GetByteArrayElements` (leases
acquired); size test `nSampleSize < frameSize || nByteSize <= 0` (release
both, return -1); otherwise `opus_encode(pEnc, pSamples, frameSize, pBytes,
nByteSize)`, release both, return its result. -/
def encode (lib : OpusLib) (pOpusEnc : Nat) (samples : Option (List Int)) (frameSize : Int)
    (bytes : Option (List Int)) : EncodeResult :=
  match samples, bytes with
  | some ps, some pb =>
    if pOpusEnc = 0 then
      ⟨-1, [], some ps, some pb, none⟩
    else
      let nSampleSize : Int := ps.length
      let nByteSize : Int := pb.length
      if nSampleSize < frameSize ∨ nByteSize ≤ 0 then
        ⟨-1, [.acquireShort, .acquireByte, .releaseShort, .releaseByte],
          some ps, some pb, none⟩
      else
        let r := lib.opusEncode pOpusEnc ps frameSize pb nByteSize
        ⟨r.1, [.acquireShort, .acquireByte, .releaseShort, .releaseByte],
          some ps, some r.2, some (pOpusEnc, ps, frameSize, pb, nByteSize)⟩
  | _, _ => ⟨-1, [], samples, bytes, none⟩

/-- Observable outcome of one `decode` call, analogous to `EncodeResult`;
`codecCall` records `(pDec, bytes contents, bytesLength, frameSize)` as passed
to `opus_decode` (`none` = codec never called). -/
structure DecodeResult where
  ret : Int
  events : List LeaseEvent
  samplesFinal : Option (List Int)
  bytesFinal : Option (List Int)
  codecCall : Option (Nat × List Int × Int × Int)
  deriving DecidableEq, Repr

/-- Embedding of `Java_org_stypox_dicio_io_audio_OpusNative_decode`. Source
order: null test on handle and both array references (return -1, nothing
acquired); `GetShortArrayElements` then `GetByteArrayElements`; size test
`bytesLength <= 0 || nShortSize < frameSize` — note the length of the byte
array itself is never read — (release both, return -1); otherwise
`opus_decode(pDec, pBytes, bytesLength, pSamples, frameSize, 0)`, release
both, return its result. -/
def decode (lib : OpusLib) (pOpusDec : Nat) (bytes : Option (List Int)) (bytesLength : Int)
    (samples : Option (List Int)) (frameSize : Int) : DecodeResult :=
  match samples, bytes with
  | some ps, some pb =>
    if pOpusDec = 0 then
      ⟨-1, [], some ps, some pb, none⟩
    else
      let nShortSize : Int := ps.length
      if bytesLength ≤ 0 ∨ nShortSize < frameSize then
        ⟨-1, [.acquireShort, .acquireByte, .releaseShort, .releaseByte],
          some ps, some pb, none⟩
      else
        let r := lib.opusDecode pOpusDec pb bytesLength ps frameSize 0
        ⟨r.1, [.acquireShort, .acquireByte, .releaseShort, .releaseByte],
          some r.2, some pb, some (pOpusDec, pb, bytesLength, frameSize)⟩
  | _, _ => ⟨-1, [], samples, bytes, none⟩

/-- A call into the codec library that releases a native resource. -/
inductive CodecAction
  | encoderDestroy (p : Nat)
  | decoderDestroy (p : Nat)
  deriving DecidableEq, Repr

/-- Embedding of `Java_..._destroyEncoder`: calls `opus_encoder_destroy` only
when the handle cast to a pointer is non-null. -/
def destroyEncoder (pOpusEnc : Nat) : List CodecAction :=
  if pOpusEnc ≠ 0 then [.encoderDestroy pOpusEnc] else []

/-- Embedding of `Java_..._destroyDecoder`: calls `opus_decoder_destroy` only
when the handle cast to a pointer is non-null. -/
def destroyDecoder (pOpusDec : Nat) : List CodecAction :=
  if pOpusDec ≠ 0 then [.decoderDestroy pOpusDec] else []

/-- Embedding of `Java_..._getVersion` (working variant): returns
`opus_get_version_string()` wrapped as a managed string. -/
def getVersion (lib : OpusLib) : String :=
  lib.versionString

/-- Embedding of `Java_..._getEncoderSize`: forwards to
`opus_encoder_get_size(channels)`. -/
def getEncoderSize (lib : OpusLib) (channels : Int) : Int :=
  lib.encoderGetSize channels

/-- Embedding of `Java_..._getDecoderSize`: forwards to
`opus_decoder_get_size(channels)`. -/
def getDecoderSize (lib : OpusLib) (channels : Int) : Int :=
  lib.decoderGetSize channels

/-- A lease trace is balanced when each kind of acquisition has exactly as
many releases: no outstanding lease remains at return. -/
def leasesBalanced (es : List LeaseEvent) : Prop :=
  es.count .acquireShort = es.count .releaseShort ∧
  es.count .acquireByte = es.count .releaseByte

/-- The bridge touched native memory during the call exactly when it acquired
at least one buffer lease (`Get<T>ArrayElements` pins or copies the managed
array into native memory). -/
def touchesNativeMemory (es : List LeaseEvent) : Prop :=
  es ≠ []

/-- `true` when some `opus_encoder_ctl` configuration call recorded in a
`CreateResult` failed (Opus error codes are negative); the C code discards
these return values, so this is observable only to the model. -/
def configurationFails (lib : OpusLib) (r : CreateResult) : Bool :=
  r.ctls.any fun c => lib.encoderCtl c.1 c.2 < 0

namespace Stub

/-- Embedding of the stub `Java_..._getVersion`: a fixed literal string. -/
def getVersion : String :=
  "Opus JNI Test Version 1.0 - Ready for real Opus integration"

/-- Embedding of the stub `Java_..._createEncoder`: always returns `0L`. -/
def createEncoder (sampleRateInHz channelConfig complexity bitrate : Int) : Int :=
  0

/-- Embedding of the stub `Java_..._createDecoder`: always returns `0L`. -/
def createDecoder (sampleRateInHz channelConfig : Int) : Int :=
  0

/-- Embedding of the stub `Java_..._encode`: always returns `-1`. -/
def encode (pOpusEnc : Int) (samples : Option (List Int)) (frameSize : Int)
    (bytes : Option (List Int)) : Int :=
  -1

/-- Embedding of the stub `Java_..._decode`: always returns `-1`. -/
def decode (pOpusDec : Int) (bytes : Option (List Int)) (bytesLength : Int)
    (samples : Option (List Int)) (frameSize : Int) : Int :=
  -1

/-- Embedding of the stub `Java_..._destroyEncoder`: performs no codec
action for any handle. -/
def destroyEncoder (pOpusEnc : Int) : List CodecAction :=
  []

/-- Embedding of the stub `Java_..._destroyDecoder`: performs no codec
action for any handle. -/
def destroyDecoder (pOpusDec : Int) : List CodecAction :=
  []

/-- Embedding of the stub `Java_..._getEncoderSize`: always returns `0`. -/
def getEncoderSize (channels : Int) : Int :=
  0

/-- Embedding of the stub `Java_..._getDecoderSize`: always returns `0`. -/
def getDecoderSize (channels : Int) : Int :=
  0

end Stub

/-- A concrete `OpusLib` whose create calls succeed with pointer `1`, whose
ctl calls all succeed, and whose version string is the libopus format. -/
def sampleLib : OpusLib :=
  ⟨fun _ _ _ => (1, OPUS_OK), fun _ _ => 0, fun _ _ => (1, OPUS_OK),
   fun _ _ _ pb _ => (0, pb), fun _ _ _ ps _ _ => (0, ps),
   "libopus 1.3.1", fun _ => 1, fun _ => 1⟩

/-- A concrete `OpusLib` whose create calls succeed with pointer `1` but
whose every `opus_encoder_ctl` call fails with `-1` (`OPUS_BAD_ARG`). -/
def badCtlLib : OpusLib :=
  ⟨fun _ _ _ => (1, OPUS_OK), fun _ _ => -1, fun _ _ => (1, OPUS_OK),
   fun _ _ _ pb _ => (0, pb), fun _ _ _ ps _ _ => (0, ps),
   "libopus 1.3.1", fun _ => 1, fun _ => 1⟩

/-- A concrete `OpusLib` whose codec encode and decode calls reject every
input with the negative error codes `-3` and `-7` respectively. -/
def negLib : OpusLib :=
  ⟨fun _ _ _ => (1, OPUS_OK), fun _ _ => 0, fun _ _ => (1, OPUS_OK),
   fun _ _ _ pb _ => (-3, pb), fun _ _ _ ps _ _ => (-7, ps),
   "libopus 1.3.1", fun _ => 1, fun _ => 1⟩

/-- C1: every call to `encode` or `decode` in the working variant, on every
exit path (success, precondition `-1`, or negative codec error), releases
every buffer lease it acquired before returning, so the outstanding lease
count at return is zero. -/
theorem encode_decode_release_all_leases (lib : OpusLib) (h : Nat)
    (samples bytes : Option (List Int)) (frameSize bytesLength : Int) :
    leasesBalanced (encode lib h samples frameSize bytes).events ∧
    leasesBalanced (decode lib h bytes bytesLength samples frameSize).events := by
  cases samples <;> cases bytes <;>
    simp only [encode, decode, leasesBalanced] <;>
    constructor <;> constructor <;>
    first
      | rfl
      | (split <;> first | rfl | (split <;> rfl))

/-- Branch lemma: with non-null references and a non-null handle, a size
violation makes `encode` release both leases and return `-1` with both
buffers unchanged and the codec not called. -/
theorem encode_eq_size (lib : OpusLib) (h : Nat) (ps : List Int) (fs : Int) (pb : List Int)
    (hnz : h ≠ 0) (hsz : (ps.length : Int) < fs ∨ (pb.length : Int) ≤ 0) :
    encode lib h (some ps) fs (some pb) =
      ⟨-1, [.acquireShort, .acquireByte, .releaseShort, .releaseByte],
        some ps, some pb, none⟩ := by
  simp only [encode]
  rw [if_neg hnz, if_pos hsz]

/-- Branch lemma: with non-null references, a non-null handle and sizes in
range, `encode` calls `opus_encode` and returns its result, with the output
byte buffer replaced by the codec's output. -/
theorem encode_eq_codec (lib : OpusLib) (h : Nat) (ps : List Int) (fs : Int) (pb : List Int)
    (hnz : h ≠ 0) (hok : ¬((ps.length : Int) < fs ∨ (pb.length : Int) ≤ 0)) :
    encode lib h (some ps) fs (some pb) =
      ⟨(lib.opusEncode h ps fs pb (pb.length : Int)).1,
        [.acquireShort, .acquireByte, .releaseShort, .releaseByte],
        some ps, some (lib.opusEncode h ps fs pb (pb.length : Int)).2,
        some (h, ps, fs, pb, (pb.length : Int))⟩ := by
  simp only [encode]
  rw [if_neg hnz, if_neg hok]

/-- Branch lemma: with non-null references and a non-null handle, a size
violation makes `decode` release both leases and return `-1` with both
buffers unchanged and the codec not called. -/
theorem decode_eq_size (lib : OpusLib) (h : Nat) (pb : List Int) (bl : Int) (ps : List Int)
    (fs : Int) (hnz : h ≠ 0) (hsz : bl ≤ 0 ∨ (ps.length : Int) < fs) :
    decode lib h (some pb) bl (some ps) fs =
      ⟨-1, [.acquireShort, .acquireByte, .releaseShort, .releaseByte],
        some ps, some pb, none⟩ := by
  simp only [decode]
  rw [if_neg hnz, if_pos hsz]

/-- Branch lemma: with non-null references, a non-null handle and sizes in
range, `decode` calls `opus_decode` with `bytesLength` forwarded verbatim and
returns its result, with the output sample buffer replaced by the codec's
output. -/
theorem decode_eq_codec (lib : OpusLib) (h : Nat) (pb : List Int) (bl : Int) (ps : List Int)
    (fs : Int) (hnz : h ≠ 0) (hok : ¬(bl ≤ 0 ∨ (ps.length : Int) < fs)) :
    decode lib h (some pb) bl (some ps) fs =
      ⟨(lib.opusDecode h pb bl ps fs 0).1,
        [.acquireShort, .acquireByte, .releaseShort, .releaseByte],
        some (lib.opusDecode h pb bl ps fs 0).2, some pb,
        some (h, pb, bl, fs)⟩ := by
  simp only [decode]
  rw [if_neg hnz, if_neg hok]

/-- C2 counterexample: at the concrete call `encode(handle 1, samples of
length 1, frameSize 2, one output byte)` the size precondition is violated
and the bridge returns `-1` without invoking the codec — but it does touch
native memory first: both buffer leases are acquired (and then released)
before the mismatch is detected, contradicting the claim's "without touching
native memory". -/
theorem encode_size_violation_touches_native_memory :
    (encode sampleLib 1 (some [0]) 2 (some [0])).ret = -1 ∧
    (encode sampleLib 1 (some [0]) 2 (some [0])).codecCall = none ∧
    touchesNativeMemory (encode sampleLib 1 (some [0]) 2 (some [0])).events := by
  refine ⟨by decide, by decide, ?_⟩
  intro hcontra
  simp [encode] at hcontra

/-- C2 (amended): null handle or null buffer references make `encode` and
`decode` return `-1` immediately, without touching native memory and without
invoking the codec; size-precondition violations (`inputSamples` length <
`frameSize` or `outputBytes` length ≤ 0 for encode, `byteLength` ≤ 0 or
`outputSamples` length < `frameSize` for decode) also return `-1` without
invoking the codec, but only after both buffer leases have been acquired and
released again. -/
theorem precondition_failures_return_without_codec (lib : OpusLib)
    (hE hD : Nat) (psE pbE psD pbD : List Int) (fsE fsD blD : Int)
    (hEnz : hE ≠ 0) (hDnz : hD ≠ 0)
    (hszE : (psE.length : Int) < fsE ∨ (pbE.length : Int) ≤ 0)
    (hszD : blD ≤ 0 ∨ (psD.length : Int) < fsD) :
    ((encode lib 0 (some psE) fsE (some pbE)).ret = -1 ∧
     ¬ touchesNativeMemory (encode lib 0 (some psE) fsE (some pbE)).events ∧
     (encode lib 0 (some psE) fsE (some pbE)).codecCall = none) ∧
    ((encode lib hE none fsE (some pbE)).ret = -1 ∧
     ¬ touchesNativeMemory (encode lib hE none fsE (some pbE)).events ∧
     (encode lib hE none fsE (some pbE)).codecCall = none) ∧
    ((encode lib hE (some psE) fsE none).ret = -1 ∧
     ¬ touchesNativeMemory (encode lib hE (some psE) fsE none).events ∧
     (encode lib hE (some psE) fsE none).codecCall = none) ∧
    ((encode lib hE (some psE) fsE (some pbE)).ret = -1 ∧
     (encode lib hE (some psE) fsE (some pbE)).codecCall = none ∧
     (encode lib hE (some psE) fsE (some pbE)).events =
       [.acquireShort, .acquireByte, .releaseShort, .releaseByte]) ∧
    ((decode lib 0 (some pbD) blD (some psD) fsD).ret = -1 ∧
     ¬ touchesNativeMemory (decode lib 0 (some pbD) blD (some psD) fsD).events ∧
     (decode lib 0 (some pbD) blD (some psD) fsD).codecCall = none) ∧
    ((decode lib hD none blD (some psD) fsD).ret = -1 ∧
     ¬ touchesNativeMemory (decode lib hD none blD (some psD) fsD).events ∧
     (decode lib hD none blD (some psD) fsD).codecCall = none) ∧
    ((decode lib hD (some pbD) blD none fsD).ret = -1 ∧
     ¬ touchesNativeMemory (decode lib hD (some pbD) blD none fsD).events ∧
     (decode lib hD (some pbD) blD none fsD).codecCall = none) ∧
    ((decode lib hD (some pbD) blD (some psD) fsD).ret = -1 ∧
     (decode lib hD (some pbD) blD (some psD) fsD).codecCall = none ∧
     (decode lib hD (some pbD) blD (some psD) fsD).events =
       [.acquireShort, .acquireByte, .releaseShort, .releaseByte]) := by
  refine ⟨⟨rfl, ?_, rfl⟩, ⟨rfl, ?_, rfl⟩, ⟨rfl, ?_, rfl⟩, ?_,
          ⟨rfl, ?_, rfl⟩, ⟨rfl, ?_, rfl⟩, ⟨rfl, ?_, rfl⟩, ?_⟩
  · intro hc; exact hc rfl
  · intro hc; exact hc rfl
  · intro hc; exact hc rfl
  · rw [encode_eq_size lib hE psE fsE pbE hEnz hszE]
    exact ⟨rfl, rfl, rfl⟩
  · intro hc; exact hc rfl
  · intro hc; exact hc rfl
  · intro hc; exact hc rfl
  · rw [decode_eq_size lib hD pbD blD psD fsD hDnz hszD]
    exact ⟨rfl, rfl, rfl⟩

/-- C2 witness: concrete instances of the amended theorem — an encode call
with an empty sample array against frameSize 1 and a decode call with
byteLength 0 both return `-1`. -/
theorem precondition_failures_witness :
    (encode sampleLib 1 (some []) 1 (some [0])).ret = -1 ∧
    (decode sampleLib 1 (some [0]) 0 (some []) 1).ret = -1 := by
  have h := precondition_failures_return_without_codec sampleLib 1 1 [] [0] [] [0] 1 1 0
    (by decide) (by decide) (by decide) (by decide)
  exact ⟨h.2.2.2.1.1, h.2.2.2.2.2.2.2.1⟩

/-- C3 counterexample: with a codec in which allocation succeeds (pointer 1,
`OPUS_OK`) but every `opus_encoder_ctl` configuration call fails with `-1`,
`createEncoder 16000 1 5 16000` performs failing configuration calls yet
still returns handle `1`, not the sentinel `0` the claim requires for
configuration failure — the C code discards all ctl return values. -/
theorem createEncoder_ignores_configuration_failure :
    configurationFails badCtlLib (createEncoder badCtlLib 16000 1 5 16000) = true ∧
    (createEncoder badCtlLib 16000 1 5 16000).handle = 1 := by
  decide

/-- C3 (amended): `createEncoder` and `createDecoder` return the sentinel `0`
exactly when codec resource allocation fails (the codec returns a null
pointer); on successful allocation they return the non-zero handle.
Failures of the post-creation configuration calls are not detected and do
not affect the returned handle. -/
theorem create_sentinel_iff_allocation_failure (lib : OpusLib) (sr ch cx br : Int) :
    ((createEncoder lib sr ch cx br).handle = 0 ↔
      (lib.encoderCreate sr ch OPUS_APPLICATION_VOIP).1 = 0) ∧
    (createDecoder lib sr ch = 0 ↔ (lib.decoderCreate sr ch).1 = 0) := by
  constructor
  · simp only [createEncoder]
    split <;> simp
  · simp [createDecoder]

/-- C4: on every successful encoder creation (non-null pointer, `OPUS_OK`),
`createEncoder` applies exactly the fixed configuration policy, in source
order: VBR disabled (constant bit-rate), VBR-constraint enabled, the
requested bitrate, the requested complexity, voice signal hint, 16-bit
sample depth, DTX disabled, inband FEC disabled, packet-loss-percentage 0. -/
theorem createEncoder_applies_fixed_policy (lib : OpusLib) (sr ch cx br : Int)
    (hp : (lib.encoderCreate sr ch OPUS_APPLICATION_VOIP).1 ≠ 0)
    (he : (lib.encoderCreate sr ch OPUS_APPLICATION_VOIP).2 = OPUS_OK) :
    (createEncoder lib sr ch cx br).ctls =
      [(.setVBR, 0), (.setVBRConstraint, 1), (.setBitrate, br),
       (.setComplexity, cx), (.setSignal, OPUS_SIGNAL_VOICE),
       (.setLSBDepth, 16), (.setDTX, 0), (.setInbandFEC, 0),
       (.setPacketLossPerc, 0)] := by
  simp only [createEncoder]
  rw [if_pos ⟨hp, he⟩]

/-- C4 witness: with a codec whose creation succeeds, the concrete call
`createEncoder 16000 1 5 16000` records exactly the fixed policy with
bitrate 16000 and complexity 5. -/
theorem createEncoder_applies_fixed_policy_witness :
    (sampleLib.encoderCreate 16000 1 OPUS_APPLICATION_VOIP).1 ≠ 0 ∧
    (sampleLib.encoderCreate 16000 1 OPUS_APPLICATION_VOIP).2 = OPUS_OK ∧
    (createEncoder sampleLib 16000 1 5 16000).ctls =
      [(.setVBR, 0), (.setVBRConstraint, 1), (.setBitrate, 16000),
       (.setComplexity, 5), (.setSignal, OPUS_SIGNAL_VOICE),
       (.setLSBDepth, 16), (.setDTX, 0), (.setInbandFEC, 0),
       (.setPacketLossPerc, 0)] :=
  ⟨by decide, by decide,
   createEncoder_applies_fixed_policy sampleLib 16000 1 5 16000 (by decide) (by decide)⟩

/-- C5: in the interface-shape (stub) variant, for every input,
`createEncoder` and `createDecoder` return the sentinel `0`, `encode` and
`decode` return `-1`, and `getEncoderSize` and `getDecoderSize` return the
placeholder `0`. -/
theorem stub_variant_constant_results (sr ch cx br hE hD fs bl chans : Int)
    (samples bytes : Option (List Int)) :
    Stub.createEncoder sr ch cx br = 0 ∧ Stub.createDecoder sr ch = 0 ∧
    Stub.encode hE samples fs bytes = -1 ∧
    Stub.decode hD bytes bl samples fs = -1 ∧
    Stub.getEncoderSize chans = 0 ∧ Stub.getDecoderSize chans = 0 :=
  ⟨rfl, rfl, rfl, rfl, rfl, rfl⟩

/-- C6: destroying the sentinel handle `0` is a no-op in the working variant
(no codec destroy call is issued), and the stub variant's destroy operations
issue no codec action for any handle; all four are total functions, so none
can crash. -/
theorem destroy_on_sentinel_is_noop :
    destroyEncoder 0 = [] ∧ destroyDecoder 0 = [] ∧
    ∀ h : Int, Stub.destroyEncoder h = [] ∧ Stub.destroyDecoder h = [] :=
  ⟨by decide, by decide, fun _ => ⟨rfl, rfl⟩⟩

/-- C7: an encode call whose sample array is shorter than `frameSize`, and a
decode call with `byteLength` ≤ 0 or an output sample array shorter than
`frameSize`, return `-1` and leave both buffers exactly as they were at
entry. -/
theorem short_input_rejected_without_mutation (lib : OpusLib)
    (hE hD : Nat) (psE pbE psD pbD : List Int) (fsE fsD blD : Int)
    (hshortE : (psE.length : Int) < fsE)
    (hshortD : blD ≤ 0 ∨ (psD.length : Int) < fsD) :
    ((encode lib hE (some psE) fsE (some pbE)).ret = -1 ∧
     (encode lib hE (some psE) fsE (some pbE)).samplesFinal = some psE ∧
     (encode lib hE (some psE) fsE (some pbE)).bytesFinal = some pbE) ∧
    ((decode lib hD (some pbD) blD (some psD) fsD).ret = -1 ∧
     (decode lib hD (some pbD) blD (some psD) fsD).samplesFinal = some psD ∧
     (decode lib hD (some pbD) blD (some psD) fsD).bytesFinal = some pbD) := by
  constructor
  · by_cases h0 : hE = 0
    · subst h0; exact ⟨rfl, rfl, rfl⟩
    · rw [encode_eq_size lib hE psE fsE pbE h0 (Or.inl hshortE)]
      exact ⟨rfl, rfl, rfl⟩
  · by_cases h0 : hD = 0
    · subst h0; exact ⟨rfl, rfl, rfl⟩
    · rw [decode_eq_size lib hD pbD blD psD fsD h0 hshortD]
      exact ⟨rfl, rfl, rfl⟩

/-- C7 witness: an encode call with 1 sample against frameSize 2 and a
decode call with byteLength 0 both return `-1` with buffers unchanged. -/
theorem short_input_rejected_without_mutation_witness :
    ((1 : Int) < 2) ∧
    (encode sampleLib 1 (some [5]) 2 (some [9])).ret = -1 ∧
    (encode sampleLib 1 (some [5]) 2 (some [9])).samplesFinal = some [5] ∧
    (encode sampleLib 1 (some [5]) 2 (some [9])).bytesFinal = some [9] ∧
    (decode sampleLib 1 (some [9]) 0 (some [5]) 1).ret = -1 ∧
    (decode sampleLib 1 (some [9]) 0 (some [5]) 1).samplesFinal = some [5] ∧
    (decode sampleLib 1 (some [9]) 0 (some [5]) 1).bytesFinal = some [9] := by
  have h := short_input_rejected_without_mutation sampleLib 1 1 [5] [9] [5] [9] 2 1 0
    (by decide) (by decide)
  exact ⟨by decide, h.1.1, h.1.2.1, h.1.2.2, h.2.1, h.2.2.1, h.2.2.2⟩

/-- C8: when the bridge-level preconditions hold and the codec itself rejects
the input with a negative error code, `encode` and `decode` return that codec
error code unchanged. -/
theorem codec_error_propagated_unchanged (lib : OpusLib)
    (hE hD : Nat) (psE pbE psD pbD : List Int) (fsE fsD blD : Int)
    (hEnz : hE ≠ 0) (hDnz : hD ≠ 0)
    (hEok : ¬((psE.length : Int) < fsE ∨ (pbE.length : Int) ≤ 0))
    (hDok : ¬(blD ≤ 0 ∨ (psD.length : Int) < fsD))
    (hEneg : (lib.opusEncode hE psE fsE pbE (pbE.length : Int)).1 < 0)
    (hDneg : (lib.opusDecode hD pbD blD psD fsD 0).1 < 0) :
    (encode lib hE (some psE) fsE (some pbE)).ret =
      (lib.opusEncode hE psE fsE pbE (pbE.length : Int)).1 ∧
    (decode lib hD (some pbD) blD (some psD) fsD).ret =
      (lib.opusDecode hD pbD blD psD fsD 0).1 := by
  rw [encode_eq_codec lib hE psE fsE pbE hEnz hEok,
      decode_eq_codec lib hD pbD blD psD fsD hDnz hDok]
  exact ⟨rfl, rfl⟩

/-- C8 witness: against a codec that rejects every frame with `-3` on encode
and `-7` on decode, valid bridge calls return exactly `-3` and `-7`. -/
theorem codec_error_propagated_unchanged_witness :
    (encode negLib 1 (some [0, 0]) 2 (some [9])).ret = -3 ∧
    (decode negLib 1 (some [4]) 1 (some [0, 0]) 2).ret = -7 := by
  have h := codec_error_propagated_unchanged negLib 1 1 [0, 0] [9] [0, 0] [4] 2 2 1
    (by decide) (by decide) (by decide) (by decide) (by decide) (by decide)
  exact ⟨h.1.trans (by decide), h.2.trans (by decide)⟩

/-- C9: `getVersion` returns a non-empty string in both variants: the working
variant forwards the codec's version string (non-empty for any real codec
library, here a hypothesis on the abstract codec), the stub returns its fixed
non-empty literal; both are total pure functions, so they always succeed. -/
theorem getVersion_nonempty (lib : OpusLib) (hv : lib.versionString ≠ "") :
    getVersion lib ≠ "" ∧ Stub.getVersion ≠ "" :=
  ⟨hv, by decide⟩

/-- C9 witness: with the concrete libopus-style version string, both
variants return non-empty strings. -/
theorem getVersion_nonempty_witness :
    sampleLib.versionString ≠ "" ∧ getVersion sampleLib ≠ "" ∧ Stub.getVersion ≠ "" := by
  have h := getVersion_nonempty sampleLib (by decide)
  exact ⟨by decide, h.1, h.2⟩

/-- C10: `decode` validates only `byteLength > 0` and output sample length ≥
`frameSize`; it never reads the input byte array's real length, so whenever
those two checks pass the given `byteLength` is forwarded verbatim to
`opus_decode` — with no hypothesis relating `byteLength` to the byte array's
actual length. -/
theorem decode_forwards_bytesLength_unchecked (lib : OpusLib) (h : Nat)
    (pb ps : List Int) (bl fs : Int)
    (hnz : h ≠ 0) (hbl : 0 < bl) (hfs : fs ≤ (ps.length : Int)) :
    (decode lib h (some pb) bl (some ps) fs).codecCall = some (h, pb, bl, fs) := by
  rw [decode_eq_codec lib h pb bl ps fs hnz
    (not_or.mpr ⟨not_le.mpr hbl, not_lt.mpr hfs⟩)]

/-- C10 witness: a decode call with a 1-byte input array but `byteLength`
100 (far beyond the array's real length) passes the bridge checks and
forwards 100 to the codec unchanged. -/
theorem decode_forwards_bytesLength_unchecked_witness :
    ((([7] : List Int).length : Int) < 100) ∧
    (decode sampleLib 1 (some [7]) 100 (some [0, 0]) 2).codecCall =
      some (1, [7], 100, 2) :=
  ⟨by decide,
   decode_forwards_bytesLength_unchecked sampleLib 1 [7] [0, 0] 100 2
     (by decide) (by decide) (by decide)⟩

end OpusJNI
